import Mathlib

/-!
Shallow embedding of the Chat-room repository: the Supabase schema and
row-level-security (RLS) policies from
`supabase/migrations/20250916173834_scarlet_mud.sql`, and the client-side
operations from `src/components/ChatInterface.tsx` and `src/lib/supabase.ts`.

Tables become Lean structures over lists of rows; RLS policies become
Boolean predicates; client operations become state-passing functions
returning `Except ChatError` where the code can fail.
-/

namespace ChatRoom

abbrev UserId := Nat
abbrev RoomId := Nat
abbrev MessageId := Nat

/-- Row of `chat_rooms` (migration lines 39-47): `name text NOT NULL`,
`created_by` nullable, `is_private boolean DEFAULT false`. -/
structure Room where
  id : RoomId
  name : String
  description : Option String
  created_by : Option UserId
  is_private : Bool
  created_at : Nat
deriving DecidableEq, Repr

/-- `role text CHECK (role IN ('admin','moderator','member'))` on `room_members`. -/
inductive Role where
  | admin
  | moderator
  | member
deriving DecidableEq, Repr

/-- Row of `room_members` (migration lines 61-68): `UNIQUE(room_id, user_id)`. -/
structure Membership where
  room_id : RoomId
  user_id : UserId
  role : Role
deriving DecidableEq, Repr

/-- Row of `messages` (migration lines 50-58). -/
structure Message where
  id : MessageId
  content : String
  user_id : UserId
  room_id : RoomId
  reply_to : Option MessageId
  edited_at : Option Nat
  created_at : Nat
deriving DecidableEq, Repr

/-- Row of `message_reactions` (migration lines 71-78):
`UNIQUE(message_id, user_id, emoji)`. -/
structure Reaction where
  message_id : MessageId
  user_id : UserId
  emoji : String
deriving DecidableEq, Repr

/-- Row of `profiles` (migration lines 27-36). -/
structure Profile where
  id : UserId
  username : Option String
  email : Option String
  avatar_url : Option String
deriving DecidableEq, Repr

/-- The database state: one list of rows per table of the migration. -/
structure DB where
  rooms : List Room
  members : List Membership
  messages : List Message
  reactions : List Reaction
  profiles : List Profile
deriving DecidableEq, Repr

def emptyDB : DB :=
  { rooms := [], members := [], messages := [], reactions := [], profiles := [] }

/-- Error taxonomy used by the operations. -/
inductive ChatError where
  | Forbidden
  | ValidationError
  | NotFound
  | Conflict
deriving DecidableEq, Repr

/-! ## RLS policies, translated from the migration -/

/-- Policy "Chat rooms are viewable by everyone" (migration lines 101-103):
`FOR SELECT USING (true)` — every room row is visible to every caller. -/
def chatRoomsSelectPolicy (_uid : UserId) (_r : Room) : Bool :=
  true

/-- Policy "Room creators can update their rooms" (migration lines 110-112):
`FOR UPDATE USING (auth.uid() = created_by)`; no column is excluded. -/
def chatRoomsUpdatePolicy (uid : UserId) (r : Room) : Bool :=
  r.created_by == some uid

/-- Policy "Authenticated users can insert messages" (migration lines 131-134):
`FOR INSERT TO authenticated WITH CHECK (auth.uid() = user_id)` — the only
check is that the author field is the caller; membership is not consulted. -/
def messagesInsertPolicy (uid : UserId) (m : Message) : Bool :=
  uid == m.user_id

/-- Policy "Users can update their own messages" (migration lines 136-138):
`FOR UPDATE USING (auth.uid() = user_id)`. -/
def messagesUpdatePolicy (uid : UserId) (m : Message) : Bool :=
  uid == m.user_id

/-- Policy "Users can join public rooms" (migration lines 151-161):
insert into `room_members` requires `auth.uid() = user_id` and the target
room to exist with `is_private = false`. -/
def roomMembersInsertPolicy (db : DB) (uid : UserId) (mb : Membership) : Bool :=
  uid == mb.user_id &&
    db.rooms.any (fun r => r.id == mb.room_id && r.is_private == false)

/-- Policy "Messages are viewable by room members" (migration lines 115-129):
visible when the caller has a membership row for the message's room, or the
room is public. -/
def messagesSelectPolicy (db : DB) (uid : UserId) (m : Message) : Bool :=
  db.members.any (fun mb => mb.room_id == m.room_id && mb.user_id == uid) ||
    db.rooms.any (fun r => r.id == m.room_id && r.is_private == false)

/-! ## Client operations -/

/-- `createRoom` from `ChatInterface.tsx` lines 112-144: after the signed-in
check it inserts a single `chat_rooms` row with the given name/description and
`created_by = currentUser.id`; `is_private` takes the DB default `false`.
No `room_members` row is inserted by this operation (nor by `createChatRoom`
in `lib/supabase.ts`, nor by any trigger in the migration).  The insert policy
"Authenticated users can create rooms" is `WITH CHECK (true)`. -/
def createRoom (db : DB) (uid : UserId) (newId : RoomId) (name : String)
    (description : Option String) (now : Nat) : Except ChatError (DB × Room) :=
  let r : Room :=
    { id := newId, name := name, description := description,
      created_by := some uid, is_private := false, created_at := now }
  Except.ok ({ db with rooms := db.rooms ++ [r] }, r)

/-- Insertion by ascending `created_at`, auxiliary to `listRooms`. -/
def insertByCreatedAt (r : Room) : List Room → List Room
  | [] => [r]
  | x :: xs =>
    if r.created_at ≤ x.created_at then r :: x :: xs
    else x :: insertByCreatedAt r xs

/-- `ORDER BY created_at ASC` as insertion sort. -/
def sortByCreatedAt : List Room → List Room
  | [] => []
  | x :: xs => insertByCreatedAt x (sortByCreatedAt xs)

/-- `fetchRooms` from `ChatInterface.tsx` lines 49-71:
`select * from chat_rooms order by created_at ascending`, filtered by the
rooms SELECT policy (which admits every row to every caller). -/
def listRooms (db : DB) (uid : UserId) : List Room :=
  sortByCreatedAt (db.rooms.filter (fun r => chatRoomsSelectPolicy uid r))

/-- A message insert as gated by "Authenticated users can insert messages":
the row is written whenever the policy passes, otherwise the write is
rejected (RLS violation, surfaced as Forbidden). -/
def postMessage (db : DB) (uid : UserId) (newId : MessageId) (roomId : RoomId)
    (content : String) (now : Nat) : Except ChatError DB :=
  let m : Message :=
    { id := newId, content := content, user_id := uid, room_id := roomId,
      reply_to := none, edited_at := none, created_at := now }
  if messagesInsertPolicy uid m then
    Except.ok { db with messages := db.messages ++ [m] }
  else
    Except.error ChatError.Forbidden

/-- A `chat_rooms` UPDATE setting `is_private`, as permitted by
"Room creators can update their rooms": rows whose `created_by` is the caller
and whose id matches are updated; other rows are untouched. -/
def updateRoomIsPrivate (db : DB) (uid : UserId) (roomId : RoomId) (v : Bool) : DB :=
  { db with rooms := db.rooms.map (fun r =>
      if r.id == roomId && chatRoomsUpdatePolicy uid r then
        { r with is_private := v }
      else r) }

/-- Does a `room_members` row match the `onConflict: 'room_id,user_id'`
key, i.e. the `UNIQUE(room_id, user_id)` constraint? -/
def memberKeyMatches (roomId : RoomId) (uid : UserId) (mb : Membership) : Bool :=
  mb.room_id == roomId && mb.user_id == uid

/-- The conflict branch of the upsert: a row matching the unique key has its
columns set to the supplied values (`role: 'member'`); other rows are left
alone. -/
def upsertMemberRole (roomId : RoomId) (uid : UserId) (mb : Membership) : Membership :=
  if memberKeyMatches roomId uid mb then { mb with role := Role.member } else mb

/-- `joinDefaultRooms` body from `ChatInterface.tsx` lines 90-110, for one
room: `upsert({room_id, user_id, role: 'member'}, {onConflict: 'room_id,user_id'})`
under the `room_members` insert policy.  On conflict with the unique
`(room_id, user_id)` pair the existing row is updated with the supplied
values; otherwise a fresh row is inserted. -/
def joinRoom (db : DB) (uid : UserId) (roomId : RoomId) : Except ChatError DB :=
  if roomMembersInsertPolicy db uid
      { room_id := roomId, user_id := uid, role := Role.member } then
    if db.members.any (memberKeyMatches roomId uid) then
      Except.ok { db with members := db.members.map (upsertMemberRole roomId uid) }
    else
      Except.ok { db with members :=
        db.members ++ [{ room_id := roomId, user_id := uid, role := Role.member }] }
  else
    Except.error ChatError.Forbidden

/-- The `room_members` rows for one `(room, user)` pair. -/
def pairRows (db : DB) (roomId : RoomId) (uid : UserId) : List Membership :=
  db.members.filter (memberKeyMatches roomId uid)

/-- The `UNIQUE(room_id, user_id)` constraint of `room_members` as a state
invariant: at most one row per pair. -/
def membersUnique (db : DB) : Prop :=
  ∀ roomId uid, (pairRows db roomId uid).length ≤ 1

/-! ## Message edit and reactions

The message-edit and reaction toggling UI lives in `ChatWindow.tsx`, which is
not among the repository files under `src/`; only the RLS policies that gate
those writes are.  The operations below are therefore modelled from the spec,
with the gates taken verbatim from the migration's policies. -/

/-- Modelled from the spec: `editMessage(editorId, messageId, newContent)`
(the client edit code in `ChatWindow.tsx` is missing from src/) — requires
`canEditMessage`, i.e. the migration's "Users can update their own messages"
policy, and "sets `edited_at`" while leaving other columns of other rows
alone. -/
def editMessage (db : DB) (uid : UserId) (messageId : MessageId)
    (newContent : String) (now : Nat) : Except ChatError DB :=
  match db.messages.find? (fun m => m.id == messageId) with
  | none => Except.error ChatError.NotFound
  | some m =>
    if messagesUpdatePolicy uid m then
      Except.ok { db with messages := db.messages.map (fun m2 =>
        if m2.id == messageId then
          { m2 with content := newContent, edited_at := some now }
        else m2) }
    else
      Except.error ChatError.Forbidden

/-- Does a reaction row match the `(message_id, user_id, emoji)` triple? -/
def reactionMatches (messageId : MessageId) (uid : UserId) (emoji : String)
    (rx : Reaction) : Bool :=
  rx.message_id == messageId && rx.user_id == uid && rx.emoji == emoji

/-- Modelled from the spec: `react(userId, messageId, emoji)` (the reaction
client code in `ChatWindow.tsx` is missing from src/) — inserts the unique
`(message_id, user_id, emoji)` row; the `UNIQUE` constraint of
`message_reactions` forbids a duplicate, so an already-present triple is left
as is. -/
def react (db : DB) (uid : UserId) (messageId : MessageId) (emoji : String) : DB :=
  if db.reactions.any (reactionMatches messageId uid emoji) then db
  else
    { db with reactions :=
        db.reactions ++ [{ message_id := messageId, user_id := uid, emoji := emoji }] }

/-- Modelled from the spec: `unreact(userId, messageId, emoji)` (missing from
src/ like `react`) — removes the `(message_id, user_id, emoji)` row, permitted
by the "Users can manage their own reactions" policy. -/
def unreact (db : DB) (uid : UserId) (messageId : MessageId) (emoji : String) : DB :=
  { db with reactions :=
      db.reactions.filter (fun rx => !(reactionMatches messageId uid emoji rx)) }

/-! ## Signup trigger -/

/-- Postgres `split_part(s, d, n)` for a one-character delimiter: split on the
delimiter and return the n-th field (1-indexed; empty when out of range). -/
def splitFields (d : Char) : List Char → List (List Char)
  | [] => [[]]
  | c :: cs =>
    match splitFields d cs with
    | [] => [[]]
    | f :: fs => if c == d then [] :: f :: fs else (c :: f) :: fs

def split_part (s : String) (d : Char) (n : Nat) : String :=
  String.mk ((splitFields d s.toList).getD (n - 1) [])

/-- The base64 alphabet used by Postgres `encode(..., 'base64')`. -/
def b64Char (n : Nat) : Char :=
  "ABCDEFGHIJKLMNOPQRSTUVWXYZabcdefghijklmnopqrstuvwxyz0123456789+/".toList.getD n 'A'

/-- Base64 of a byte list (each `Nat` < 256). -/
def base64EncodeBytes : List Nat → String
  | [] => ""
  | [a] =>
    String.mk [b64Char (a / 4), b64Char ((a % 4) * 16)] ++ "=="
  | [a, b] =>
    String.mk [b64Char (a / 4), b64Char ((a % 4) * 16 + b / 16),
               b64Char ((b % 16) * 4)] ++ "="
  | a :: b :: c :: rest =>
    String.mk [b64Char (a / 4), b64Char ((a % 4) * 16 + b / 16),
               b64Char ((b % 16) * 4 + c / 64), b64Char (c % 64)]
      ++ base64EncodeBytes rest

/-- `encode(email::bytea, 'base64')` on the UTF-8 bytes of the string. -/
def base64Encode (s : String) : String :=
  base64EncodeBytes (s.toUTF8.toList.map (fun b => b.toNat))

/-- A row inserted into `auth.users` at signup: id, email and the
`raw_user_meta_data` fields the trigger reads. -/
structure NewUser where
  id : UserId
  email : String
  meta_username : Option String
  meta_avatar_url : Option String
deriving DecidableEq, Repr

/-- `handle_new_user()` (migration lines 181-196): the profile row the trigger
inserts — username = metadata username or `split_part(email, '@', 1)`,
avatar_url = metadata avatar or a dicebear URL seeded with the base64 of the
email. -/
def handle_new_user (u : NewUser) : Profile :=
  { id := u.id,
    username := some (u.meta_username.getD (split_part u.email '@' 1)),
    email := some u.email,
    avatar_url := some (u.meta_avatar_url.getD
      ("https://api.dicebear.com/7.x/initials/svg?seed=" ++ base64Encode u.email)) }

/-- The `on_auth_user_created` trigger (migration lines 199-202): `AFTER
INSERT ON auth.users FOR EACH ROW` — each signup appends exactly the one
profile row built by `handle_new_user`. -/
def signupUser (db : DB) (u : NewUser) : DB :=
  { db with profiles := db.profiles ++ [handle_new_user u] }

/-! ## Client-side mock-rooms fallback -/

/-- The `ChatRoom` interface of `ChatInterface.tsx` (client-side room record,
string ids and ISO timestamp strings). -/
structure ClientRoom where
  id : String
  name : String
  description : Option String
  created_at : String
deriving DecidableEq, Repr

/-- The client state relevant to the fallback: the `rooms` and `activeRoom`
React state of `ChatInterface`. -/
structure ClientState where
  rooms : List ClientRoom
  activeRoom : Option ClientRoom
deriving DecidableEq, Repr

/-- The hard-coded `mockRooms` array of `ChatInterface.tsx` lines 34-39;
`now` stands for `new Date().toISOString()`. -/
def mockRooms (now : String) : List ClientRoom :=
  [ { id := "1", name := "general",
      description := some "General discussion for everyone", created_at := now },
    { id := "2", name := "random",
      description := some "Random conversations and off-topic chat", created_at := now },
    { id := "3", name := "tech-talk",
      description := some "Discuss technology, programming, and development", created_at := now },
    { id := "4", name := "announcements",
      description := some "Important announcements and updates", created_at := now } ]

/-- The body of the 3-second `setTimeout` callback of `ChatInterface.tsx`
lines 31-47: when `rooms.length === 0` it sets the four mock rooms and
selects the first as active; otherwise it does nothing. -/
def mockRoomsTimeout (s : ClientState) (now : String) : ClientState :=
  if s.rooms.length == 0 then
    { s with rooms := mockRooms now, activeRoom := (mockRooms now).head? }
  else s

/-! ## Helper lemmas -/

theorem insertByCreatedAt_perm (r : Room) (l : List Room) :
    (insertByCreatedAt r l).Perm (r :: l) := by
  induction l with
  | nil => exact List.Perm.refl _
  | cons x xs ih =>
    rw [insertByCreatedAt]
    by_cases h : r.created_at ≤ x.created_at
    · simp [h]
    · simp only [h, if_false]
      exact (ih.cons x).trans (List.Perm.swap r x xs)

theorem sortByCreatedAt_perm (l : List Room) : (sortByCreatedAt l).Perm l := by
  induction l with
  | nil => exact List.Perm.refl _
  | cons x xs ih =>
    rw [sortByCreatedAt]
    exact (insertByCreatedAt_perm x (sortByCreatedAt xs)).trans (ih.cons x)

theorem insertByCreatedAt_pairwise (r : Room) (l : List Room)
    (h : List.Pairwise (fun a b : Room => a.created_at ≤ b.created_at) l) :
    List.Pairwise (fun a b : Room => a.created_at ≤ b.created_at)
      (insertByCreatedAt r l) := by
  induction l with
  | nil => simp [insertByCreatedAt]
  | cons x xs ih =>
    rw [insertByCreatedAt]
    rcases h with _ | ⟨hx, hxs⟩
    by_cases hle : r.created_at ≤ x.created_at
    · simp only [hle, if_true]
      refine List.Pairwise.cons ?_ (List.Pairwise.cons hx hxs)
      intro b hb
      rcases List.mem_cons.mp hb with rfl | hbxs
      · exact hle
      · exact le_trans hle (hx b hbxs)
    · simp only [hle, if_false]
      have hxr : x.created_at ≤ r.created_at := le_of_not_le hle
      refine List.Pairwise.cons ?_ (ih hxs)
      intro b hb
      rcases List.mem_cons.mp ((insertByCreatedAt_perm r xs).mem_iff.mp hb) with
        rfl | hbxs
      · exact hxr
      · exact hx b hbxs

theorem sortByCreatedAt_pairwise (l : List Room) :
    List.Pairwise (fun a b : Room => a.created_at ≤ b.created_at)
      (sortByCreatedAt l) := by
  induction l with
  | nil => simp [sortByCreatedAt]
  | cons x xs ih =>
    rw [sortByCreatedAt]
    exact insertByCreatedAt_pairwise x (sortByCreatedAt xs) ih

/-! ## C1: admin membership on room creation -/

/-- The state right after the `createRoom` of `ChatInterface.tsx` runs on an
empty database, caller 7, new room id 1. -/
def c1PostState : DB :=
  match createRoom emptyDB 7 1 "general" none 0 with
  | Except.ok (db, _) => db
  | Except.error _ => emptyDB

/-- C1 counterexample: after `createRoom` returns, the room (id 1) exists but
the creating identity (uid 7) holds no membership row at all in it — in
particular no admin membership, contradicting the claim that the admin
membership is created atomically with the room row. -/
theorem createRoom_leaves_creator_without_membership :
    c1PostState.rooms.map Room.id = [1] ∧
    c1PostState.rooms.map Room.created_by = [some 7] ∧
    pairRows c1PostState 1 7 = [] := by
  refine ⟨rfl, rfl, rfl⟩

/-- C1 amended: `createRoom` inserts only the `chat_rooms` row; the
`room_members` table is unchanged, so the creator holds no membership (admin
or otherwise) in the new room when `createRoom` returns. -/
theorem createRoom_inserts_room_only (db : DB) (uid : UserId) (newId : RoomId)
    (nm : String) (desc : Option String) (now : Nat) :
    ∃ db' r, createRoom db uid newId nm desc now = Except.ok (db', r) ∧
      db'.members = db.members ∧
      r ∈ db'.rooms ∧ r.created_by = some uid := by
  refine ⟨_, _, rfl, rfl, ?_, rfl⟩
  simp [createRoom]

/-! ## C2: write access requires membership? -/

/-- A public room (id 5) with an empty membership table. -/
def c2PubDB : DB :=
  { emptyDB with rooms :=
      [{ id := 5, name := "general", description := none,
         created_by := none, is_private := false, created_at := 0 }] }

/-- A private room (id 6) with an empty membership table. -/
def c2PrivDB : DB :=
  { emptyDB with rooms :=
      [{ id := 6, name := "secret", description := none,
         created_by := some 2, is_private := true, created_at := 0 }] }

/-- C2 counterexample: uid 1 is a member of no room, yet `postMessage` into
the public room succeeds (it does not fail with Forbidden), and it even
succeeds into the private room — the insert policy never consults
membership. -/
theorem postMessage_succeeds_for_non_member :
    pairRows c2PubDB 5 1 = [] ∧
    postMessage c2PubDB 1 10 5 "hi" 0 =
      Except.ok { c2PubDB with messages :=
        [{ id := 10, content := "hi", user_id := 1, room_id := 5,
           reply_to := none, edited_at := none, created_at := 0 }] } ∧
    pairRows c2PrivDB 6 1 = [] ∧
    postMessage c2PrivDB 1 11 6 "hi" 0 =
      Except.ok { c2PrivDB with messages :=
        [{ id := 11, content := "hi", user_id := 1, room_id := 6,
           reply_to := none, edited_at := none, created_at := 0 }] } := by
  refine ⟨rfl, rfl, rfl, rfl⟩

/-- C2 amended: the write gate on `messages` is only
`auth.uid() = user_id`: the policy holds iff the message is self-authored,
and `postMessage` by any user writing as themselves succeeds in every room,
member or not, public or private. -/
theorem postMessage_gated_only_by_self_authorship (db : DB) (uid : UserId)
    (newId : MessageId) (roomId : RoomId) (content : String) (now : Nat) :
    (∀ m : Message, messagesInsertPolicy uid m = true ↔ m.user_id = uid) ∧
    postMessage db uid newId roomId content now =
      Except.ok { db with messages := db.messages ++
        [{ id := newId, content := content, user_id := uid, room_id := roomId,
           reply_to := none, edited_at := none, created_at := now }] } := by
  constructor
  · intro m
    simp only [messagesInsertPolicy, beq_iff_eq]
    exact eq_comm
  · unfold postMessage
    simp [messagesInsertPolicy]

/-! ## C3: room listing -/

/-- A private room (id 9) whose membership table is empty; caller 1 is not a
member. -/
def c3DB : DB :=
  { emptyDB with rooms :=
      [{ id := 9, name := "secret", description := none,
         created_by := some 2, is_private := true, created_at := 0 }] }

/-- C3 counterexample: the room is private, caller 1 has no membership, yet
`listRooms` (the client `fetchRooms` under the "viewable by everyone" SELECT
policy) returns it — a private room with no membership for the caller does
appear. -/
theorem listRooms_shows_private_room_to_non_member :
    c3DB.rooms.map Room.is_private = [true] ∧
    pairRows c3DB 9 1 = [] ∧
    (listRooms c3DB 1).map Room.id = [9] := by
  refine ⟨rfl, rfl, rfl⟩

/-- C3 amended: `listRooms` returns all rooms — public and private alike,
membership never consulted (the SELECT policy is `USING (true)`) — ordered by
`created_at` ascending. -/
theorem listRooms_returns_all_rooms_sorted (db : DB) (uid : UserId) :
    (listRooms db uid).Perm db.rooms ∧
    List.Pairwise (fun a b : Room => a.created_at ≤ b.created_at)
      (listRooms db uid) := by
  constructor
  · have h : db.rooms.filter (fun r => chatRoomsSelectPolicy uid r) = db.rooms := by
      simp [chatRoomsSelectPolicy]
    unfold listRooms
    rw [h]
    exact sortByCreatedAt_perm db.rooms
  · exact sortByCreatedAt_pairwise _

/-! ## C4: empty room name -/

/-- The state right after `createRoom` with the empty string as name. -/
def c4PostState : DB :=
  match createRoom emptyDB 3 2 "" none 5 with
  | Except.ok (db, _) => db
  | Except.error _ => emptyDB

/-- C4 counterexample: `createRoom` with `name = ""` does not fail — the
`NOT NULL` constraint rejects only null, no code path validates emptiness —
and a room row with the empty name is created. -/
theorem createRoom_accepts_empty_name :
    createRoom emptyDB 3 2 "" none 5 =
      Except.ok (c4PostState,
        { id := 2, name := "", description := none, created_by := some 3,
          is_private := false, created_at := 5 }) ∧
    c4PostState.rooms.map Room.name = [""] := by
  refine ⟨rfl, rfl⟩

/-- C4 amended: a `createRoom` call with the empty string as name succeeds
and creates the room row with `name = ""`. -/
theorem createRoom_empty_name_creates_room (db : DB) (uid : UserId)
    (newId : RoomId) (desc : Option String) (now : Nat) :
    ∃ db' r, createRoom db uid newId "" desc now = Except.ok (db', r) ∧
      r.name = "" ∧ r ∈ db'.rooms := by
  refine ⟨_, _, rfl, rfl, ?_⟩
  simp [createRoom]

/-! ## C5: mutability of is_private -/

/-- A public room (id 4) created by uid 2. -/
def c5DB : DB :=
  { emptyDB with rooms :=
      [{ id := 4, name := "room", description := none,
         created_by := some 2, is_private := false, created_at := 0 }] }

/-- C5 counterexample: the creator (uid 2) updates their room under the
"Room creators can update their rooms" policy and flips `is_private` from
`false` to `true` — the flag is not immutable after creation. -/
theorem creator_can_flip_is_private :
    c5DB.rooms.map Room.is_private = [false] ∧
    (updateRoomIsPrivate c5DB 2 4 true).rooms.map Room.is_private = [true] := by
  refine ⟨rfl, rfl⟩

/-- C5 amended: `is_private` is mutable after creation, but only by the
room's creator: an update issued by any identity that created none of the
rooms leaves the database unchanged. -/
theorem is_private_unchanged_by_non_creators (db : DB) (uid : UserId)
    (roomId : RoomId) (v : Bool)
    (h : ∀ r ∈ db.rooms, r.created_by ≠ some uid) :
    updateRoomIsPrivate db uid roomId v = db := by
  unfold updateRoomIsPrivate
  cases db with
  | mk rooms members messages reactions profiles =>
    simp only [DB.mk.injEq, and_true, true_and]
    have hmap : ∀ r ∈ rooms,
        (if r.id == roomId && chatRoomsUpdatePolicy uid r then
          { r with is_private := v } else r) = id r := by
      intro r hr
      have hb : chatRoomsUpdatePolicy uid r = false := by
        unfold chatRoomsUpdatePolicy
        simp only [beq_eq_false_iff_ne, ne_eq]
        exact h r hr
      simp [hb]
    rw [List.map_congr_left hmap, List.map_id]

theorem is_private_unchanged_by_non_creators_witness :
    (∀ r ∈ c5DB.rooms, r.created_by ≠ some 3) ∧
    updateRoomIsPrivate c5DB 3 4 true = c5DB :=
  ⟨by decide, is_private_unchanged_by_non_creators c5DB 3 4 true (by decide)⟩

/-! ## C6: join idempotency -/

theorem memberKeyMatches_set_role (roomId : RoomId) (uid : UserId)
    (mb : Membership) (x : Role) :
    memberKeyMatches roomId uid { mb with role := x } =
      memberKeyMatches roomId uid mb := rfl

theorem memberKeyMatches_upsert (roomId : RoomId) (uid : UserId) (mb : Membership) :
    memberKeyMatches roomId uid (upsertMemberRole roomId uid mb) =
      memberKeyMatches roomId uid mb := by
  unfold upsertMemberRole
  by_cases h : memberKeyMatches roomId uid mb <;>
    simp [h, memberKeyMatches_set_role]

theorem upsertMemberRole_idem (roomId : RoomId) (uid : UserId) (mb : Membership) :
    upsertMemberRole roomId uid (upsertMemberRole roomId uid mb) =
      upsertMemberRole roomId uid mb := by
  unfold upsertMemberRole
  by_cases h : memberKeyMatches roomId uid mb <;>
    simp [h, memberKeyMatches_set_role]

theorem filter_map_upsert (roomId : RoomId) (uid : UserId) (l : List Membership) :
    (l.map (upsertMemberRole roomId uid)).filter (memberKeyMatches roomId uid) =
      (l.filter (memberKeyMatches roomId uid)).map (upsertMemberRole roomId uid) := by
  induction l with
  | nil => rfl
  | cons a t ih =>
    simp only [List.map_cons, List.filter_cons, memberKeyMatches_upsert]
    by_cases h : memberKeyMatches roomId uid a
    · simp [h, ih]
    · simp [h, ih]

theorem any_map_upsert (roomId : RoomId) (uid : UserId) (l : List Membership) :
    (l.map (upsertMemberRole roomId uid)).any (memberKeyMatches roomId uid) =
      l.any (memberKeyMatches roomId uid) := by
  induction l with
  | nil => rfl
  | cons a t ih =>
    simp [List.any_cons, memberKeyMatches_upsert, ih]

theorem map_upsert_idem (roomId : RoomId) (uid : UserId) (l : List Membership) :
    (l.map (upsertMemberRole roomId uid)).map (upsertMemberRole roomId uid) =
      l.map (upsertMemberRole roomId uid) := by
  rw [List.map_map]
  exact List.map_congr_left (fun a _ => upsertMemberRole_idem roomId uid a)

/-- When the insert policy passes, the pair row is already present and the
upsert is a no-op, `joinRoom` returns the state unchanged. -/
theorem joinRoom_noop (db : DB) (uid : UserId) (roomId : RoomId)
    (hp : roomMembersInsertPolicy db uid
      { room_id := roomId, user_id := uid, role := Role.member } = true)
    (ha : db.members.any (memberKeyMatches roomId uid) = true)
    (hm : db.members.map (upsertMemberRole roomId uid) = db.members) :
    joinRoom db uid roomId = Except.ok db := by
  unfold joinRoom
  rw [if_pos hp, if_pos ha, hm]

/-- C6: after a successful `joinRoom` the `(room, user)` pair has exactly one
membership row, with role member, and calling `joinRoom` again returns the
state unchanged — repeated joins are idempotent.  The `membersUnique`
hypothesis is the `UNIQUE(room_id, user_id)` constraint of `room_members`. -/
theorem joinRoom_idempotent_unique (db : DB) (uid : UserId) (roomId : RoomId)
    (db' : DB) (hu : membersUnique db)
    (hj : joinRoom db uid roomId = Except.ok db') :
    pairRows db' roomId uid =
      [{ room_id := roomId, user_id := uid, role := Role.member }] ∧
    joinRoom db' uid roomId = Except.ok db' := by
  unfold joinRoom at hj
  by_cases hp : roomMembersInsertPolicy db uid
      { room_id := roomId, user_id := uid, role := Role.member } = true
  · rw [if_pos hp] at hj
    by_cases ha : db.members.any (memberKeyMatches roomId uid) = true
    · -- conflict branch: the pair row existed, its role is set to member
      rw [if_pos ha] at hj
      injection hj with h
      subst h
      have hne : db.members.filter (memberKeyMatches roomId uid) ≠ [] := by
        obtain ⟨x, hx, hpx⟩ := List.any_eq_true.mp ha
        intro hcon
        have hmem : x ∈ db.members.filter (memberKeyMatches roomId uid) :=
          List.mem_filter.mpr ⟨hx, hpx⟩
        rw [hcon] at hmem
        exact absurd hmem (List.not_mem_nil x)
      have hlen : (db.members.filter (memberKeyMatches roomId uid)).length = 1 :=
        Nat.le_antisymm (hu roomId uid)
          (Nat.succ_le_of_lt (List.length_pos.mpr hne))
      obtain ⟨mb0, hmb0⟩ := List.length_eq_one.mp hlen
      have hkm0 : memberKeyMatches roomId uid mb0 = true := by
        have hmem : mb0 ∈ db.members.filter (memberKeyMatches roomId uid) := by
          rw [hmb0]
          exact List.mem_singleton.mpr rfl
        exact (List.mem_filter.mp hmem).2
      have hmb0eq : upsertMemberRole roomId uid mb0 =
          { room_id := roomId, user_id := uid, role := Role.member } := by
        obtain ⟨r0, u0, rl0⟩ := mb0
        simp only [memberKeyMatches, Bool.and_eq_true, beq_iff_eq] at hkm0
        obtain ⟨hr, hu0⟩ := hkm0
        subst hr
        subst hu0
        simp [upsertMemberRole, memberKeyMatches]
      constructor
      · show (db.members.map (upsertMemberRole roomId uid)).filter
            (memberKeyMatches roomId uid) =
          [{ room_id := roomId, user_id := uid, role := Role.member }]
        rw [filter_map_upsert, hmb0]
        simp [hmb0eq]
      · apply joinRoom_noop
        · exact hp
        · show (db.members.map (upsertMemberRole roomId uid)).any
              (memberKeyMatches roomId uid) = true
          rw [any_map_upsert]
          exact ha
        · show (db.members.map (upsertMemberRole roomId uid)).map
              (upsertMemberRole roomId uid) =
            db.members.map (upsertMemberRole roomId uid)
          exact map_upsert_idem roomId uid db.members
    · -- insert branch: no pair row existed, one is appended
      rw [if_neg ha] at hj
      injection hj with h
      subst h
      have haf : db.members.any (memberKeyMatches roomId uid) = false :=
        Bool.eq_false_iff.mpr ha
      have hnil : db.members.filter (memberKeyMatches roomId uid) = [] :=
        List.filter_eq_nil_iff.mpr (List.any_eq_false.mp haf)
      have hid : db.members.map (upsertMemberRole roomId uid) = db.members := by
        have hpt : ∀ mb ∈ db.members,
            upsertMemberRole roomId uid mb = id mb := by
          intro mb hmb
          have hk : memberKeyMatches roomId uid mb = false :=
            Bool.eq_false_iff.mpr (List.any_eq_false.mp haf mb hmb)
          simp [upsertMemberRole, hk]
        calc db.members.map (upsertMemberRole roomId uid)
            = db.members.map id := List.map_congr_left hpt
          _ = db.members := List.map_id db.members
      constructor
      · show (db.members ++
            [({ room_id := roomId, user_id := uid, role := Role.member } : Membership)]).filter
              (memberKeyMatches roomId uid) =
          [{ room_id := roomId, user_id := uid, role := Role.member }]
        rw [List.filter_append, hnil]
        simp [memberKeyMatches]
      · apply joinRoom_noop
        · exact hp
        · show (db.members ++
              [({ room_id := roomId, user_id := uid, role := Role.member } : Membership)]).any
                (memberKeyMatches roomId uid) = true
          rw [List.any_append, haf]
          simp [memberKeyMatches]
        · show (db.members ++
              [({ room_id := roomId, user_id := uid, role := Role.member } : Membership)]).map
                (upsertMemberRole roomId uid) =
            db.members ++ [{ room_id := roomId, user_id := uid, role := Role.member }]
          rw [List.map_append, hid]
          simp [upsertMemberRole, memberKeyMatches]
  · rw [if_neg hp] at hj
    simp at hj

/-- A public room (id 1) with no members yet. -/
def c6DB : DB :=
  { emptyDB with rooms :=
      [{ id := 1, name := "general", description := none,
         created_by := none, is_private := false, created_at := 0 }] }

/-- The state after uid 5 joins room 1. -/
def c6Joined : DB :=
  { c6DB with members := [{ room_id := 1, user_id := 5, role := Role.member }] }

theorem joinRoom_idempotent_unique_witness :
    pairRows c6Joined 1 5 =
      [{ room_id := 1, user_id := 5, role := Role.member }] ∧
    joinRoom c6Joined 5 1 = Except.ok c6Joined :=
  joinRoom_idempotent_unique c6DB 5 1 c6Joined
    (fun roomId uid => by simp [pairRows, c6DB, emptyDB]) rfl

/-! ## C7: reaction toggle -/

/-- C7: toggling the `(message, user, emoji)` triple with `react` then
`unreact`, starting from a state where the triple is absent, returns exactly
the original state; and in the intermediate state exactly one reaction row
exists for the triple — the `UNIQUE(message_id, user_id, emoji)` constraint
is respected. -/
theorem react_unreact_roundtrip (db : DB) (uid : UserId) (mid : MessageId)
    (emoji : String)
    (h : db.reactions.any (reactionMatches mid uid emoji) = false) :
    unreact (react db uid mid emoji) uid mid emoji = db ∧
    (react db uid mid emoji).reactions.filter (reactionMatches mid uid emoji) =
      [{ message_id := mid, user_id := uid, emoji := emoji }] := by
  have hnot : ¬ db.reactions.any (reactionMatches mid uid emoji) = true := by
    rw [h]
    simp
  have hreact : react db uid mid emoji =
      { db with reactions := db.reactions ++
        [({ message_id := mid, user_id := uid, emoji := emoji } : Reaction)] } := by
    unfold react
    rw [if_neg hnot]
  have hfid : db.reactions.filter
      (fun rx => !(reactionMatches mid uid emoji rx)) = db.reactions := by
    apply List.filter_eq_self.mpr
    intro rx hrx
    have hb : reactionMatches mid uid emoji rx = false :=
      Bool.eq_false_iff.mpr (List.any_eq_false.mp h rx hrx)
    simp [hb]
  have hrow : ([({ message_id := mid, user_id := uid, emoji := emoji } : Reaction)]).filter
      (fun rx => !(reactionMatches mid uid emoji rx)) = [] := by
    simp [reactionMatches]
  have hunre : unreact { db with reactions := db.reactions ++
        [({ message_id := mid, user_id := uid, emoji := emoji } : Reaction)] }
      uid mid emoji =
    { db with reactions :=
        (List.filter (fun rx => !(reactionMatches mid uid emoji rx))
          (db.reactions ++
            [({ message_id := mid, user_id := uid, emoji := emoji } : Reaction)])) } := rfl
  have hproj : (react db uid mid emoji).reactions = db.reactions ++
      [({ message_id := mid, user_id := uid, emoji := emoji } : Reaction)] := by
    rw [hreact]
  constructor
  · rw [hreact, hunre, List.filter_append, hfid, hrow, List.append_nil]
  · rw [hproj, List.filter_append,
      List.filter_eq_nil_iff.mpr (List.any_eq_false.mp h)]
    simp [reactionMatches]

theorem react_unreact_roundtrip_witness :
    unreact (react emptyDB 4 2 "x") 4 2 "x" = emptyDB ∧
    (react emptyDB 4 2 "x").reactions.filter (reactionMatches 2 4 "x") =
      [{ message_id := 2, user_id := 4, emoji := "x" }] :=
  react_unreact_roundtrip emptyDB 4 2 "x" rfl

/-! ## C8: message edit -/

/-- C8: the update gate on messages holds iff the caller authored the
message; a successful `editMessage` leaves an edited copy of every message
with the target id — same `created_at`, `edited_at = some now` (non-null) —
and leaves every other message untouched. -/
theorem canEditMessage_author_only (db : DB) (uid : UserId) (mid : MessageId)
    (c : String) (now : Nat) (db' : DB)
    (hs : editMessage db uid mid c now = Except.ok db') :
    (∀ m : Message, messagesUpdatePolicy uid m = true ↔ m.user_id = uid) ∧
    (∃ m ∈ db.messages, m.id = mid ∧ m.user_id = uid) ∧
    (∀ m ∈ db.messages, m.id = mid →
      ({ m with content := c, edited_at := some now } : Message) ∈ db'.messages) ∧
    (∀ m ∈ db.messages, m.id ≠ mid → m ∈ db'.messages) := by
  unfold editMessage at hs
  cases hfe : db.messages.find? (fun m => m.id == mid) with
  | none =>
    rw [hfe] at hs
    exact absurd hs (by simp)
  | some m0 =>
    rw [hfe] at hs
    have hs2 : (if messagesUpdatePolicy uid m0 then
        Except.ok { db with messages := db.messages.map (fun m2 =>
          if m2.id == mid then
            { m2 with content := c, edited_at := some now }
          else m2) }
      else Except.error ChatError.Forbidden) = Except.ok db' := hs
    by_cases hpol : messagesUpdatePolicy uid m0 = true
    · rw [if_pos hpol] at hs2
      injection hs2 with h
      subst h
      have hm0mem : m0 ∈ db.messages := List.mem_of_find?_eq_some hfe
      have hm0id : m0.id = mid := by
        have hp := List.find?_some hfe
        simpa using hp
      have hm0uid : m0.user_id = uid := by
        unfold messagesUpdatePolicy at hpol
        have := beq_iff_eq.mp hpol
        exact this.symm
      refine ⟨?_, ⟨m0, hm0mem, hm0id, hm0uid⟩, ?_, ?_⟩
      · intro m
        simp only [messagesUpdatePolicy, beq_iff_eq]
        exact eq_comm
      · intro m hm hid
        show ({ m with content := c, edited_at := some now } : Message) ∈
          db.messages.map (fun m2 => if m2.id == mid then
            { m2 with content := c, edited_at := some now } else m2)
        have heq : ({ m with content := c, edited_at := some now } : Message) =
            (fun m2 => if m2.id == mid then
              { m2 with content := c, edited_at := some now } else m2) m := by
          simp [hid]
        rw [heq]
        exact List.mem_map_of_mem _ hm
      · intro m hm hid
        show m ∈ db.messages.map (fun m2 => if m2.id == mid then
          { m2 with content := c, edited_at := some now } else m2)
        have heq : (fun m2 => if m2.id == mid then
            { m2 with content := c, edited_at := some now } else m2) m = m := by
          simp [hid]
        exact heq ▸ List.mem_map_of_mem _ hm
    · rw [if_neg hpol] at hs2
      exact absurd hs2 (by simp)

/-- One message (id 3) authored by uid 2. -/
def c8DB : DB :=
  { emptyDB with messages :=
      [{ id := 3, content := "hello", user_id := 2, room_id := 1,
         reply_to := none, edited_at := none, created_at := 4 }] }

/-- The state after uid 2 edits message 3 at time 9. -/
def c8Edited : DB :=
  { c8DB with messages :=
      [{ id := 3, content := "edited", user_id := 2, room_id := 1,
         reply_to := none, edited_at := some 9, created_at := 4 }] }

theorem canEditMessage_author_only_witness :
    editMessage c8DB 2 3 "edited" 9 = Except.ok c8Edited ∧
    ({ id := 3, content := "edited", user_id := 2, room_id := 1,
       reply_to := none, edited_at := some 9, created_at := 4 } : Message) ∈
      c8Edited.messages := by
  have h := canEditMessage_author_only c8DB 2 3 "edited" 9 c8Edited rfl
  refine ⟨rfl, ?_⟩
  exact h.2.2.1
    { id := 3, content := "hello", user_id := 2, room_id := 1,
      reply_to := none, edited_at := none, created_at := 4 }
    (by decide) rfl

/-! ## C9: mock-rooms fallback -/

/-- C9: when the timeout fires with no rooms fetched, the client substitutes
the four fabricated rooms general/random/tech-talk/announcements, with local
ids "1".."4" and the locally generated timestamp, and selects the first of
them as the active room. -/
theorem mock_rooms_fallback (s : ClientState) (now : String)
    (h : s.rooms = []) :
    ((mockRoomsTimeout s now).rooms.map ClientRoom.name) =
      ["general", "random", "tech-talk", "announcements"] ∧
    ((mockRoomsTimeout s now).rooms.map ClientRoom.id) = ["1", "2", "3", "4"] ∧
    (∀ r ∈ (mockRoomsTimeout s now).rooms, r.created_at = now) ∧
    (mockRoomsTimeout s now).activeRoom = (mockRoomsTimeout s now).rooms.head? := by
  unfold mockRoomsTimeout
  rw [h]
  simp [mockRooms]

theorem mock_rooms_fallback_witness :
    ((mockRoomsTimeout { rooms := [], activeRoom := none }
        "2024-01-01T00:00:00Z").rooms.map ClientRoom.name) =
      ["general", "random", "tech-talk", "announcements"] ∧
    (mockRoomsTimeout { rooms := [], activeRoom := none }
        "2024-01-01T00:00:00Z").activeRoom =
      (mockRoomsTimeout { rooms := [], activeRoom := none }
        "2024-01-01T00:00:00Z").rooms.head? := by
  have h := mock_rooms_fallback { rooms := [], activeRoom := none }
    "2024-01-01T00:00:00Z" rfl
  exact ⟨h.1, h.2.2.2⟩

/-! ## C10: signup trigger -/

theorem splitFields_ne_nil (d : Char) (l : List Char) : splitFields d l ≠ [] := by
  induction l with
  | nil => simp [splitFields]
  | cons c cs ih =>
    unfold splitFields
    cases hcs : splitFields d cs with
    | nil => simp
    | cons f fs =>
      by_cases h : c == d <;> simp [h]

/-- The first field of `splitFields` is the longest delimiter-free prefix. -/
theorem splitFields_head (d : Char) (l : List Char) :
    (splitFields d l).getD 0 [] = l.takeWhile (fun c => !(c == d)) := by
  induction l with
  | nil => rfl
  | cons c cs ih =>
    unfold splitFields
    cases hcs : splitFields d cs with
    | nil => exact absurd hcs (splitFields_ne_nil d cs)
    | cons f fs =>
      rw [hcs] at ih
      simp only [List.getD_cons_zero] at ih
      by_cases h : c == d
      · simp [h]
      · simp [h, ih]

/-- `split_part(s, d, 1)` is the prefix of `s` before the first occurrence of
the delimiter (the whole string when the delimiter is absent). -/
theorem split_part_first_field (s : String) (d : Char) :
    split_part s d 1 = String.mk (s.toList.takeWhile (fun c => !(c == d))) := by
  unfold split_part
  exact congrArg String.mk (splitFields_head d s.toList)

/-- C10: a signup appends exactly one profile row; when the auth metadata has
no username the profile's username is the local part of the email (the
substring before the first '@'), and when the metadata has no avatar the
avatar_url is the dicebear URL deterministically derived from the email. -/
theorem signup_creates_profile_from_email (db : DB) (u : NewUser)
    (hn : u.meta_username = none) :
    (signupUser db u).profiles = db.profiles ++ [handle_new_user u] ∧
    (handle_new_user u).username =
      some (String.mk (u.email.toList.takeWhile (fun c => !(c == '@')))) ∧
    (u.meta_avatar_url = none →
      (handle_new_user u).avatar_url =
        some ("https://api.dicebear.com/7.x/initials/svg?seed=" ++
          base64Encode u.email)) := by
  refine ⟨rfl, ?_, ?_⟩
  · unfold handle_new_user
    rw [hn]
    simp only [Option.getD_none]
    rw [split_part_first_field]
  · intro ha
    unfold handle_new_user
    rw [ha]
    rfl

theorem signup_creates_profile_from_email_witness :
    (handle_new_user
      { id := 1, email := "alice@example.com",
        meta_username := none, meta_avatar_url := none }).username = some "alice" ∧
    (handle_new_user
      { id := 1, email := "alice@example.com",
        meta_username := none, meta_avatar_url := none }).avatar_url =
      some ("https://api.dicebear.com/7.x/initials/svg?seed=" ++
        base64Encode "alice@example.com") := by
  have h := signup_creates_profile_from_email emptyDB
    { id := 1, email := "alice@example.com",
      meta_username := none, meta_avatar_url := none } rfl
  refine ⟨?_, h.2.2 rfl⟩
  rw [h.2.1]
  rfl

end ChatRoom
